import Mathlib

/-!
# Verification of `gbs.py` (Google-business scraping pipeline)

A shallow embedding of `src/gbs.py`.  External collaborators — the Google Maps
client (`geocode`, `places`, `place`), the HTTP/HTML email extractor, `pandas`
serialization, the Supabase store, `os.getenv`, Python `int()` parsing and the
wall clock — are modelled as oracle parameters, or by their documented
interface behavior where a claim depends on it (noted at the definition).

Numeric payloads that no claim computes with (latitudes, longitudes, ratings,
review counts) are modelled as integers; wall-clock times in the rate limiter
are modelled as rationals.  Functions whose Python counterparts perform
provider calls additionally return a trace of the calls they issue, so that
claims about calls *not* being made are statable.
-/

namespace GBS

/-- A Python value as it occurs in the record dicts handed to `pandas`,
`json.dump` and Supabase. -/
inductive PyVal where
  | vNone : PyVal
  | vStr (s : String) : PyVal
  | vInt (n : Int) : PyVal
  deriving DecidableEq, Repr

/-- A resolved coordinate pair (`geometry.location` of a geocode match). -/
structure LatLng where
  lat : Int
  lng : Int
  deriving DecidableEq, Repr

/-- The `location` argument of `get_location_coordinates` (gbs.py:82): either a
Python tuple of length 2, or any other value — from `main` it is always the
`SEARCH_LOCATION` environment *string*. -/
inductive Location where
  | coords (c : LatLng) : Location
  | name (s : String) : Location
  deriving DecidableEq, Repr

/-- An outbound call issued by the pipeline. -/
inductive ApiCall where
  | geocode (location : String) : ApiCall
  | places (query : String) (loc : LatLng) (radius : Int) (pageToken : Option String) : ApiCall
  | placeDetails (placeId : String) : ApiCall
  | httpGet (url : String) : ApiCall
  deriving DecidableEq, Repr

/-- One response of the paginated `gmaps.places` endpoint: either the call
raises (`err`), or it returns a result list (place ids) and an optional
`next_page_token`. -/
inductive PageResp where
  | err : PageResp
  | page (results : List String) (next_page_token : Option String) : PageResp
  deriving DecidableEq, Repr

/-- The `logger.error` events emitted by `main` (gbs.py:196–198, 206, 227, 234).
`invalidConfig` carries the raw string whose `int()` conversion raised. -/
inductive LogEvent where
  | missingConfig (key : String) : LogEvent
  | invalidConfig (raw : String) : LogEvent
  | noData : LogEvent
  | supabaseMissingConfig : LogEvent
  deriving DecidableEq, Repr

/-- Python `str.lower()` restricted to the ASCII range exercised here. -/
def pyLower (s : String) : String := String.mk (s.data.map Char.toLower)

/-- `os.getenv(key, dflt).lower() == "true"` — the boolean-option idiom of
gbs.py:187–189. -/
def envFlag (env : String → Option String) (key dflt : String) : Bool :=
  pyLower ((env key).getD dflt) == "true"

/-- Python truthiness of an `os.getenv` result: `None` and `""` are falsy
(the `all([...])` test of gbs.py:233). -/
def pyTruthyStr : Option String → Bool
  | none => false
  | some s => !(s == "")

/-- Python list slicing `l[:n]` (gbs.py:135): a nonnegative bound keeps the
first `n` elements, a negative bound drops the last `|n|`. -/
def pySlice (n : Int) (l : List α) : List α :=
  if 0 ≤ n then l.take n.toNat else l.take (l.length - n.natAbs)

/-- One `details['result']` payload of the place-details endpoint
(gbs.py:60–79). -/
structure PlaceInfo where
  name : Option String
  formatted_address : Option String
  formatted_phone_number : Option String
  website : Option String
  rating : Option Int
  user_ratings_total : Option Int
  types : List String
  deriving DecidableEq, Repr

/-- The dict built at gbs.py:71–80, one per enriched place. -/
structure PlaceRecord where
  Name : Option String
  Address : Option String
  Phone : Option String
  Website : Option String
  Email : Option String
  Rating : Option Int
  Reviews : Option Int
  Types : String
  deriving DecidableEq, Repr

/-- gbs.py:58–80.  `extract` is the email-extractor oracle
(`extract_email_from_website`, which never raises: any failure is `none`).
The second component records the website URLs handed to the extractor, so that
"the extractor is never invoked" is statable.  `if website:` is Python
truthiness: the extractor runs only for a present, non-empty website. -/
def get_place_details (extract : String → Option String) (info : PlaceInfo) :
    PlaceRecord × List String :=
  let website := info.website
  let ec : Option String × List String :=
    match website with
    | some w => if w = "" then (none, []) else (extract w, [w])
    | none => (none, [])
  ({ Name := info.name
     Address := info.formatted_address
     Phone := info.formatted_phone_number
     Website := website
     Email := ec.1
     Rating := info.rating
     Reviews := info.user_ratings_total
     Types := String.intercalate ", " info.types }, ec.2)

/-- gbs.py:82–99.  `geocode` is the `gmaps.geocode` oracle: it raises
(`Except.error`) or returns the match list.  A tuple argument is returned
verbatim with no call; otherwise a geocode call is issued, an empty match list
raises `ValueError`, and any exception propagates (re-raised at gbs.py:99).
The second component is the trace of provider calls issued. -/
def get_location_coordinates (geocode : String → Except Unit (List LatLng)) :
    Location → Except Unit LatLng × List ApiCall
  | Location.coords c => (Except.ok c, [])
  | Location.name s =>
    match geocode s with
    | Except.error _ => (Except.error (), [ApiCall.geocode s])
    | Except.ok [] => (Except.error (), [ApiCall.geocode s])
    | Except.ok (c :: _) => (Except.ok c, [ApiCall.geocode s])

/-- The pagination loop of gbs.py:114–133.  `tok` is the page token sent with
the next call (`None` on the first call; after a page with a token the loop
sleeps 2 s and passes that token).  Returns the accumulated place ids and the
token of every call issued.  A `PageResp.err` response models the call raising:
the loop logs and breaks, keeping partial results.  The provider is modelled as
the finite list of its successive responses; an exhausted list ends the loop
with no further calls (a finite-model artifact — the claims below only
quantify within the list). -/
def search_pages (num_results : Int) :
    List PageResp → List String → Option String → List String × List (Option String)
  | [], results, _tok => (results, [])
  | p :: rest, results, tok =>
    if num_results ≤ (results.length : Int) then (results, [])
    else
      match p with
      | PageResp.err => (results, [tok])
      | PageResp.page rs t =>
        let results2 := results ++ rs
        match t with
        | none => (results2, [tok])
        | some t2 =>
          let r := search_pages num_results rest results2 (some t2)
          (r.1, tok :: r.2)

/-- Total number of results on the first pages of a provider response list
(used to state when pagination stops). -/
def resCount : List PageResp → Nat
  | [] => 0
  | PageResp.err :: rest => resCount rest
  | PageResp.page rs _ :: rest => rs.length + resCount rest

/-- A page response that lets the loop continue: the call succeeded and a
continuation token was returned. -/
def okTok : PageResp → Prop
  | PageResp.err => False
  | PageResp.page _ t => t ≠ none

/-- One enrichment task of the thread pool (gbs.py:137–144): the detail call
(`details_of`, the `gmaps.place` oracle) may raise (`none`), in which case the
future's exception is caught and the record dropped; on success
`get_place_details` runs and may invoke the email extractor. -/
def enrich_one (details_of : String → Option PlaceInfo) (extract : String → Option String)
    (place_id : String) : Option PlaceRecord × List ApiCall :=
  match details_of place_id with
  | none => (none, [ApiCall.placeDetails place_id])
  | some info =>
    let rc := get_place_details extract info
    (some rc.1, ApiCall.placeDetails place_id :: rc.2.map ApiCall.httpGet)

/-- gbs.py:101–147, the search orchestrator.  A geocoding failure is caught at
gbs.py:107–109 and yields an empty record list.  Otherwise: paginated search,
truncation `results[:num_results]`, then per-place enrichment (the thread
pool's completion order is modelled as dispatch order; the claims below depend
only on lengths and membership).  Second component: every provider/extractor
call issued. -/
def get_google_maps_data (geocode : String → Except Unit (List LatLng))
    (details_of : String → Option PlaceInfo) (extract : String → Option String)
    (pages : List PageResp) (location : Location) (query : String)
    (num_results radius : Int) : List PlaceRecord × List ApiCall :=
  let lc := get_location_coordinates geocode location
  match lc.1 with
  | Except.error _ => ([], lc.2)
  | Except.ok coords =>
    let s := search_pages num_results pages [] none
    let results := pySlice num_results s.1
    let enriched := results.map (enrich_one details_of extract)
    (enriched.filterMap Prod.fst,
     lc.2 ++ s.2.map (fun t => ApiCall.places query coords radius t)
          ++ (enriched.map Prod.snd).flatten)

/-- The keys of the record dict, in insertion order (= the CSV header `pandas`
writes for a non-empty record list). -/
def placeRecordFields : List String :=
  ["Name", "Address", "Phone", "Website", "Email", "Rating", "Reviews", "Types"]

def optStr : Option String → PyVal
  | none => PyVal.vNone
  | some s => PyVal.vStr s

def optInt : Option Int → PyVal
  | none => PyVal.vNone
  | some n => PyVal.vInt n

/-- The record dict as an ordered key/value list. -/
def recordItems (r : PlaceRecord) : List (String × PyVal) :=
  [("Name", optStr r.Name), ("Address", optStr r.Address), ("Phone", optStr r.Phone),
   ("Website", optStr r.Website), ("Email", optStr r.Email), ("Rating", optInt r.Rating),
   ("Reviews", optInt r.Reviews), ("Types", PyVal.vStr r.Types)]

/-- Modelled from `pandas`: `pd.DataFrame(rows)` infers its columns from the
row dicts' keys, in first-appearance order; in particular `pd.DataFrame([])`
has no columns. -/
def dfColumns (rows : List (List (String × PyVal))) : List String :=
  rows.foldl (fun acc r => acc ++ (r.map Prod.fst).filter (fun k => !(acc.contains k))) []

/-- The content of a CSV file written by `DataFrame.to_csv(index=False)`:
the header line of column names, then one line of cells per row. -/
structure CsvFile where
  header : List String
  rows : List (List PyVal)
  deriving DecidableEq, Repr

/-- Modelled from `pandas` `DataFrame(rows).to_csv(index=False)` for rows with
identical keys (the shape produced by `recordItems`): the inferred column
header, then each row's values. -/
def to_csv (rows : List (List (String × PyVal))) : CsvFile :=
  { header := dfColumns rows, rows := rows.map (fun r => r.map Prod.snd) }

/-- The files written by one `save_to_file` call: name and content of the
tabular and structured outputs, `none` when the format is disabled. -/
structure SavedFiles where
  csv : Option (String × CsvFile)
  json : Option (String × List (List (String × PyVal)))
  deriving DecidableEq, Repr

/-- gbs.py:149–159.  The JSON file holds the array of record objects
(`json.dump(data, f, indent=2)`). -/
def save_to_file (data : List PlaceRecord) (output_file : String)
    (output_csv output_json : Bool) : SavedFiles :=
  { csv :=
      if output_csv then some (output_file ++ ".csv", to_csv (data.map recordItems))
      else none
    json :=
      if output_json then some (output_file ++ ".json", data.map recordItems)
      else none }

/-- The required-option keys whose `os.getenv` came back `None`, in the
insertion order of the config dict (gbs.py:180–193); the remaining options all
have defaults and can never be `None`. -/
def missingKeys (a b c : Option String) : List String :=
  (if a = none then ["GOOGLE_MAPS_API_KEY"] else []) ++
  (if b = none then ["SEARCH_LOCATION"] else []) ++
  (if c = none then ["SEARCH_QUERY"] else [])

/-- The externally observable outcome of one `main` run. -/
structure MainEffects where
  apiCalls : List ApiCall
  files : Option SavedFiles
  sync : Option (String × List PlaceRecord)
  errors : List LogEvent
  deriving DecidableEq, Repr

/-- gbs.py:178–236, the pipeline driver.  `env` is `os.getenv`; `parse_int`
models Python `int()` (`none` = `ValueError`).  Effects: provider/extractor
calls, files written by `save_to_file`, records handed to `add_to_supabase`
with the table name (gbs.py:166), and the `logger.error` events. -/
def main (env : String → Option String) (parse_int : String → Option Int)
    (geocode : String → Except Unit (List LatLng))
    (details_of : String → Option PlaceInfo) (extract : String → Option String)
    (pages : List PageResp) : MainEffects :=
  match env "GOOGLE_MAPS_API_KEY", env "SEARCH_LOCATION", env "SEARCH_QUERY" with
  | some _apiKey, some loc, some query =>
    match parse_int ((env "NUM_RESULTS").getD "100") with
    | none =>
      { apiCalls := [], files := none, sync := none,
        errors := [LogEvent.invalidConfig ((env "NUM_RESULTS").getD "100")] }
    | some num_results =>
      match parse_int ((env "SEARCH_RADIUS").getD "50000") with
      | none =>
        { apiCalls := [], files := none, sync := none,
          errors := [LogEvent.invalidConfig ((env "SEARCH_RADIUS").getD "50000")] }
      | some radius =>
        let gd := get_google_maps_data geocode details_of extract pages
          (Location.name loc) query num_results radius
        if gd.1 = [] then
          { apiCalls := gd.2, files := none, sync := none, errors := [LogEvent.noData] }
        else
          let files := save_to_file gd.1 ((env "OUTPUT_FILE").getD "output")
            (envFlag env "OUTPUT_CSV" "true") (envFlag env "OUTPUT_JSON" "true")
          if envFlag env "USE_SUPABASE" "false" then
            if pyTruthyStr (env "SUPABASE_URL") && pyTruthyStr (env "SUPABASE_KEY") &&
                pyTruthyStr (env "SUPABASE_TABLE_NAME") then
              { apiCalls := gd.2, files := some files,
                sync := some ((env "SUPABASE_TABLE_NAME").getD "google_maps_data", gd.1),
                errors := [] }
            else
              { apiCalls := gd.2, files := some files, sync := none,
                errors := [LogEvent.supabaseMissingConfig] }
          else
            { apiCalls := gd.2, files := some files, sync := none, errors := [] }
  | a, b, c =>
    { apiCalls := [], files := none, sync := none,
      errors := (missingKeys a b c).map LogEvent.missingConfig }

namespace RateLimiter

/-- The time at which a throttled call is dispatched and recorded
(gbs.py:36–39): `sleep_time = period - (now - calls[0])`; the thread sleeps
that long when it is positive, and the appended `time.time()` is the
post-sleep clock. -/
def dispatchTime (period now t0 : ℚ) : ℚ :=
  if 0 < period - (now - t0) then now + (period - (now - t0)) else now

/-- One wrapped call of the `RateLimiter` decorator (gbs.py:32–40), with the
clock made explicit: `now` is the `time.time()` of entry, timestamps are
pruned to those strictly younger than `period`, and with `max_calls` or more
survivors the thread sleeps until the oldest survivor leaves the window
(`dispatchTime`); the dispatch time is recorded.  `none` models the
`IndexError` of `self.calls[0]` on an empty pruned list (reachable only with
`max_calls = 0`). -/
def step (max_calls : Nat) (period : ℚ) (calls : List ℚ) (now : ℚ) :
    Option (List ℚ × ℚ) :=
  let pruned := calls.filter (fun t => decide (now - t < period))
  if max_calls ≤ pruned.length then
    match pruned with
    | [] => none
    | t0 :: _ =>
      some (pruned ++ [dispatchTime period now t0], dispatchTime period now t0)
  else
    some (pruned ++ [now], now)

/-- A sequence of wrapped calls by a single consumer: the `k`-th call enters
`gaps[k]` seconds after the previous dispatch (arbitrary start time `cur` for
the first).  Returns the recorded dispatch timestamps, in order. -/
def run (max_calls : Nat) (period : ℚ) :
    List ℚ → List ℚ → ℚ → Option (List ℚ)
  | [], _calls, _cur => some []
  | g :: gaps, calls, cur =>
    match step max_calls period calls (cur + g) with
    | none => none
    | some cd =>
      match run max_calls period gaps cd.1 cd.2 with
      | none => none
      | some log => some (cd.2 :: log)

end RateLimiter

/-- Number of timestamps inside the half-open window `[t, t + period)` — the
formal reading of "a window of `period` consecutive seconds", matching the
limiter's own strict-age prune `now - t < period`. -/
def windowCount (period t : ℚ) (l : List ℚ) : Nat :=
  l.countP (fun x => decide (t ≤ x ∧ x < t + period))

/-- The state invariant of the rate-limiter run: `log` is the chronological
dispatch record so far, `calls` the limiter's current timestamp list, `cur`
the last dispatch time. -/
structure RLInv (N : Nat) (P : ℚ) (log calls : List ℚ) (cur : ℚ) : Prop where
  sorted_calls : calls.Sorted (· ≤ ·)
  split : ∃ old, log = old ++ calls ∧ ∀ x ∈ old, x + P ≤ cur
  bounded : ∀ x ∈ log, x ≤ cur
  window : ∀ t, windowCount P t log ≤ N

/-! ## Concrete sample inputs, used by the witnesses and counterexamples -/

/-- A Python-`int()` oracle defined on the two default numeric strings. -/
def pint0 : String → Option Int := fun s =>
  if s = "100" then some 100 else if s = "50000" then some 50000 else none

/-- A geocoder that always finds one match. -/
def geo0 : String → Except Unit (List LatLng) := fun _ => Except.ok [⟨40, -73⟩]

/-- A geocoder whose call always raises. -/
def geoFail : String → Except Unit (List LatLng) := fun _ => Except.error ()

/-- A geocoder that always returns an empty match list. -/
def geoEmpty : String → Except Unit (List LatLng) := fun _ => Except.ok []

/-- A sample detail response without a website. -/
def info0 : PlaceInfo :=
  { name := some "Cafe", formatted_address := some "1 Main St",
    formatted_phone_number := none, website := none, rating := some 4,
    user_ratings_total := some 10, types := ["cafe"] }

/-- A detail oracle that always succeeds with `info0`. -/
def det0 : String → Option PlaceInfo := fun _ => some info0

/-- An email extractor that never finds an email. -/
def ext0 : String → Option String := fun _ => none

/-- A provider returning a single final page with one result. -/
def pages0 : List PageResp := [PageResp.page ["p1"] none]

/-- An environment with exactly the three required options set. -/
def env0 : String → Option String := fun k =>
  if k = "GOOGLE_MAPS_API_KEY" then some "K"
  else if k = "SEARCH_LOCATION" then some "New York"
  else if k = "SEARCH_QUERY" then some "cafes"
  else none

/-- Override a single key of an environment. -/
def envSet (env : String → Option String) (key : String) (v : Option String) :
    String → Option String :=
  fun k => if k = key then v else env k

/-- The three-page provider of the C7 scenario: 20 results per page,
continuation tokens on the first two pages, none on the third. -/
def scenarioPages : List PageResp :=
  [PageResp.page (List.replicate 20 "p") (some "t1"),
   PageResp.page (List.replicate 20 "p") (some "t2"),
   PageResp.page (List.replicate 20 "p") none]

/-! ## Helper lemmas -/

theorem envFlag_true_iff (env : String → Option String) (key dflt : String) :
    envFlag env key dflt = true ↔ pyLower ((env key).getD dflt) = "true" := by
  simp [envFlag]

theorem length_filterMap_fst_le (l : List α) (f : α → Option β × γ) :
    ((l.map f).filterMap Prod.fst).length ≤ l.length := by
  calc ((l.map f).filterMap Prod.fst).length
      ≤ (l.map f).length := List.length_filterMap_le _ _
    _ = l.length := List.length_map _ _

theorem length_pySlice_le (n : Int) (h : 0 ≤ n) (l : List α) :
    ((pySlice n l).length : Int) ≤ n := by
  unfold pySlice
  rw [if_pos h]
  have h1 : (l.take n.toNat).length ≤ n.toNat := List.length_take_le _ _
  omega

/-! ## The claims -/

/-- C3: for every record produced by the enricher, `Email` is non-null only if
the record's `Website` is present and non-empty; and when the detail response
has no website, the extractor is never invoked (no URL is handed to it) and
`Email` is null. -/
theorem C3_theorem (extract : String → Option String) (info : PlaceInfo) :
    ((get_place_details extract info).1.Email.isSome = true →
      ∃ w, (get_place_details extract info).1.Website = some w ∧ w ≠ "") ∧
    (info.website = none →
      (get_place_details extract info).1.Email = none ∧
      (get_place_details extract info).2 = []) := by
  constructor
  · intro h
    cases hw : info.website with
    | none => simp [get_place_details, hw] at h
    | some w =>
      refine ⟨w, by simp [get_place_details, hw], ?_⟩
      intro hw0
      subst hw0
      simp [get_place_details, hw] at h
  · intro hw
    simp [get_place_details, hw]

/-- Witness for C3 at a concrete detail response with no website. -/
theorem C3_witness :
    (get_place_details (fun _ => some "a@b.co") info0).1.Email = none ∧
    (get_place_details (fun _ => some "a@b.co") info0).2 = [] :=
  (C3_theorem (fun _ => some "a@b.co") info0).2 rfl

/-- C10: the boolean options are true exactly when the environment value
lowercases to `"true"` (with `OUTPUT_CSV`/`OUTPUT_JSON` defaulting to true
when unset and `USE_SUPABASE` defaulting to false); values such as `"1"` or
`"yes"` are silently false. -/
theorem C10_theorem (env : String → Option String) :
    (envFlag env "OUTPUT_CSV" "true" = true ↔
      env "OUTPUT_CSV" = none ∨ ∃ s, env "OUTPUT_CSV" = some s ∧ pyLower s = "true") ∧
    (envFlag env "OUTPUT_JSON" "true" = true ↔
      env "OUTPUT_JSON" = none ∨ ∃ s, env "OUTPUT_JSON" = some s ∧ pyLower s = "true") ∧
    (envFlag env "USE_SUPABASE" "false" = true ↔
      ∃ s, env "USE_SUPABASE" = some s ∧ pyLower s = "true") ∧
    envFlag (fun _ => some "1") "OUTPUT_CSV" "true" = false ∧
    envFlag (fun _ => some "yes") "OUTPUT_JSON" "true" = false ∧
    envFlag (fun _ => some "TRUE") "USE_SUPABASE" "false" = true ∧
    envFlag (fun _ => none) "USE_SUPABASE" "false" = false := by
  refine ⟨?_, ?_, ?_, by decide, by decide, by decide, by decide⟩
  · rw [envFlag_true_iff]
    cases h : env "OUTPUT_CSV" with
    | none =>
      simp [h]
      decide
    | some s => simp [h]
  · rw [envFlag_true_iff]
    cases h : env "OUTPUT_JSON" with
    | none =>
      simp [h]
      decide
    | some s => simp [h]
  · rw [envFlag_true_iff]
    cases h : env "USE_SUPABASE" with
    | none =>
      simp only [h, Option.getD_none]
      constructor
      · intro h'
        exact absurd h' (by decide)
      · rintro ⟨s, hs, _⟩
        cases hs
    | some s => simp [h]

/-- C5 counterexample: `save_to_file` on the empty record list writes a CSV
whose header is empty — not the row of `PlaceRecord` field names the claim
requires (`pd.DataFrame([])` has no columns to infer). -/
theorem C5_counterexample :
    (save_to_file [] "output" true true).csv =
      some ("output.csv", { header := [], rows := [] }) ∧
    ([] : List String) ≠ placeRecordFields := ⟨rfl, by decide⟩

/-- C5 amended: persistence on an empty record list still succeeds and writes
both files; the structured file holds an empty array, but the tabular file has
an empty header (no column names), because pandas infers columns from the
records. -/
theorem C5_theorem (stem : String) :
    save_to_file [] stem true true =
      { csv := some (stem ++ ".csv", { header := [], rows := [] }),
        json := some (stem ++ ".json", []) } := rfl

/-- C1 counterexample: with `SEARCH_LOCATION="40.0,-73.0"` the driver passes
the environment *string* to `get_location_coordinates`; the `isinstance(...,
tuple)` fast path does not match a string, so a geocoding call *is* made —
refuting "no geocoding call is made; coordinates used verbatim". -/
theorem C1_counterexample :
    ApiCall.geocode "40.0,-73.0" ∈
      (main (envSet env0 "SEARCH_LOCATION" (some "40.0,-73.0"))
        pint0 geo0 det0 ext0 pages0).apiCalls := by decide

/-- C1 amended: the verbatim fast path applies exactly to a *tuple* argument
(then no geocoding call is made and the pair is returned unchanged); for any
string argument — including a coordinate-looking one such as the
`SEARCH_LOCATION` value — exactly one geocoding call is issued. -/
theorem C1_theorem (geocode : String → Except Unit (List LatLng)) :
    (∀ c : LatLng, get_location_coordinates geocode (Location.coords c) = (Except.ok c, [])) ∧
    (∀ s : String, (get_location_coordinates geocode (Location.name s)).2 = [ApiCall.geocode s]) := by
  refine ⟨fun c => rfl, fun s => ?_⟩
  cases h : geocode s with
  | error e => simp [get_location_coordinates, h]
  | ok l => cases l <;> simp [get_location_coordinates, h]

/-- C2 counterexample: the result cap is an arbitrary `int()`; with the
configurable cap `NUM_RESULTS=-1` the orchestrator produces 0 records, and
`0 ≤ -1` fails — so "length at most N for every configured cap N" is false. -/
theorem C2_counterexample :
    ¬ (((get_google_maps_data geo0 det0 ext0 [] (Location.name "x") "q" (-1) 50000).1.length : Int)
        ≤ -1) := by decide

/-- C2 amended: for every *nonnegative* cap `N` and every provider behavior,
the orchestrator's record list has length at most `N`: the accumulated search
results are truncated to `N` before enrichment (`results[:num_results]`) and
enrichment only drops records (`filterMap` over the truncated list). -/
theorem C2_theorem (geocode : String → Except Unit (List LatLng))
    (details_of : String → Option PlaceInfo) (extract : String → Option String)
    (pages : List PageResp) (location : Location) (query : String)
    (num_results radius : Int) (h : 0 ≤ num_results) :
    ((get_google_maps_data geocode details_of extract pages location query
        num_results radius).1.length : Int) ≤ num_results := by
  unfold get_google_maps_data
  cases hl : (get_location_coordinates geocode location).1 with
  | error e =>
    simp only [hl]
    exact_mod_cast h
  | ok coords =>
    simp only [hl]
    refine le_trans ?_ (length_pySlice_le num_results h (search_pages num_results pages [] none).1)
    exact_mod_cast length_filterMap_fst_le _ _

/-! ### The rate limiter (C6) -/

theorem dispatchTime_eq (period now t0 : ℚ) (h : now - t0 < period) :
    RateLimiter.dispatchTime period now t0 = t0 + period := by
  unfold RateLimiter.dispatchTime
  rw [if_pos (by linarith)]
  ring

/-- A monotone predicate selects a suffix of a sorted list. -/
theorem filter_suffix_of_mono (p : ℚ → Bool)
    (hp : ∀ a b : ℚ, a ≤ b → p a = true → p b = true) :
    ∀ l : List ℚ, l.Sorted (· ≤ ·) →
      ∃ l1, l = l1 ++ l.filter p ∧ ∀ x ∈ l1, p x = false := by
  intro l
  induction l with
  | nil => intro _; exact ⟨[], rfl, by simp⟩
  | cons a tl ih =>
    intro hs
    rw [List.sorted_cons] at hs
    obtain ⟨ha, htl⟩ := hs
    cases hpa : p a with
    | true =>
      refine ⟨[], ?_, by simp⟩
      have hall : tl.filter p = tl :=
        List.filter_eq_self.mpr fun b hb => hp a b (ha b hb) hpa
      simp [List.filter_cons, hpa, hall]
    | false =>
      obtain ⟨l1, heq, hl1⟩ := ih htl
      refine ⟨a :: l1, ?_, ?_⟩
      · have hfc : (a :: tl).filter p = tl.filter p := by
          simp [List.filter_cons, hpa]
        rw [hfc, List.cons_append]
        exact congrArg (List.cons a) heq
      · intro x hx
        rcases List.mem_cons.mp hx with rfl | hx'
        · exact hpa
        · exact hl1 x hx'

/-- One limiter step started `g ≥ 0` seconds after the previous dispatch
preserves the run invariant, and dispatches no earlier than the previous
call. -/
theorem step_preserves (N : Nat) (P : ℚ) (log calls : List ℚ) (cur g : ℚ)
    (hInv : RLInv N P log calls cur) (hg : 0 ≤ g) :
    ∀ calls2 d, RateLimiter.step N P calls (cur + g) = some (calls2, d) →
      cur ≤ d ∧ RLInv N P (log ++ [d]) calls2 d := by
  intro calls2 d hstep
  set now := cur + g with hnowdef
  have hcurnow : cur ≤ now := by rw [hnowdef]; linarith
  obtain ⟨old, hlog, hold⟩ := hInv.split
  simp only [RateLimiter.step] at hstep
  set pruned := calls.filter (fun t => decide (now - t < P)) with hpr
  have hmono : ∀ a b : ℚ, a ≤ b → (fun t => decide (now - t < P)) a = true →
      (fun t => decide (now - t < P)) b = true := by
    intro a b hab hpa
    simp only [decide_eq_true_eq] at hpa ⊢
    linarith
  obtain ⟨dropped, hcalls_eq, hdropped⟩ :=
    filter_suffix_of_mono _ hmono calls hInv.sorted_calls
  rw [← hpr] at hcalls_eq
  have hcallsle : ∀ x ∈ calls, x ≤ cur := by
    intro x hx
    exact hInv.bounded x (by rw [hlog]; exact List.mem_append_right old hx)
  have hprsorted : pruned.Sorted (· ≤ ·) := hInv.sorted_calls.filter _
  have hprmem : ∀ x ∈ pruned, x ∈ calls ∧ now - x < P := by
    intro x hx
    have h1 := List.mem_filter.mp (hpr ▸ hx)
    exact ⟨h1.1, by simpa using h1.2⟩
  have hdropped' : ∀ x ∈ dropped, x + P ≤ now := by
    intro x hx
    have h1 := hdropped x hx
    simp only [decide_eq_false_iff_not, not_lt] at h1
    linarith
  by_cases hN : N ≤ pruned.length
  · rw [if_pos hN] at hstep
    cases hprE : pruned with
    | nil =>
      rw [hprE] at hstep
      simp at hstep
    | cons t0 tl =>
      rw [hprE] at hstep
      have hcd : calls2 = (t0 :: tl) ++ [RateLimiter.dispatchTime P now t0] ∧
          d = RateLimiter.dispatchTime P now t0 := by
        have h' : some (((t0 :: tl) ++ [RateLimiter.dispatchTime P now t0] : List ℚ),
            RateLimiter.dispatchTime P now t0) = some (calls2, d) := hstep
        simpa [Prod.ext_iff, eq_comm] using h'
      obtain ⟨hc2, hd⟩ := hcd
      subst hc2
      subst hd
      have ht0pruned : t0 ∈ pruned := by rw [hprE]; exact List.mem_cons_self _ _
      have ht0P : now - t0 < P := (hprmem t0 ht0pruned).2
      have ht0cur : t0 ≤ cur := hcallsle t0 (hprmem t0 ht0pruned).1
      have hD : RateLimiter.dispatchTime P now t0 = t0 + P := dispatchTime_eq P now t0 ht0P
      rw [hD]
      have hnowD : now < t0 + P := by linarith
      have hprwin : ∀ x ∈ pruned, t0 ≤ x ∧ x < t0 + P := by
        intro x hx
        have hxmem : x ∈ t0 :: tl := by rw [← hprE]; exact hx
        constructor
        · have hs := hprsorted
          rw [hprE, List.sorted_cons] at hs
          rcases List.mem_cons.mp hxmem with rfl | h
          · exact le_refl x
          · exact hs.1 x h
        · have : x ≤ cur := hcallsle x (hprmem x hx).1
          linarith
      have hlog2 : log = (old ++ dropped) ++ pruned := by
        rw [hlog, hcalls_eq, List.append_assoc]
      have hcount_ge : pruned.length ≤ windowCount P t0 log := by
        rw [hlog2, windowCount, List.countP_append]
        have hfull : List.countP (fun x => decide (t0 ≤ x ∧ x < t0 + P)) pruned
            = pruned.length :=
          List.countP_eq_length.mpr (fun x hx => by simpa using hprwin x hx)
        omega
      have hlenN : pruned.length = N := le_antisymm (hcount_ge.trans (hInv.window t0)) hN
      have htl : tl.length + 1 = N := by
        rw [← hlenN, hprE, List.length_cons]
      refine ⟨by linarith, ?_, ?_, ?_, ?_⟩
      · -- sorted
        apply List.pairwise_append.mpr
        refine ⟨by rw [← hprE]; exact hprsorted, List.sorted_singleton _, ?_⟩
        intro x hx y hy
        simp only [List.mem_singleton] at hy
        subst hy
        have hx' : x ∈ pruned := by rw [hprE]; exact hx
        have := hcallsle x (hprmem x hx').1
        linarith
      · -- split
        refine ⟨old ++ dropped, ?_, ?_⟩
        · rw [hlog, hcalls_eq, hprE]
          simp [List.append_assoc]
        · intro x hx
          rcases List.mem_append.mp hx with h | h
          · have := hold x h; linarith
          · have := hdropped' x h; linarith
      · -- bounded
        intro x hx
        rcases List.mem_append.mp hx with h | h
        · have := hInv.bounded x h; linarith
        · simp only [List.mem_singleton] at h; subst h; exact le_refl _
      · -- window
        intro t
        rw [windowCount, List.countP_append]
        by_cases hdw : t ≤ t0 + P ∧ t0 + P < t + P
        · have htt0 : t0 < t := by
            rcases hdw with ⟨h1, h2⟩; linarith
          have hz : List.countP (fun x => decide (t ≤ x ∧ x < t + P)) (old ++ dropped) = 0 := by
            apply List.countP_eq_zero.mpr
            intro x hx
            simp only [decide_eq_true_eq, not_and]
            intro hx1
            rcases List.mem_append.mp hx with h | h
            · have := hold x h; exact absurd hx1 (by linarith)
            · have := hdropped' x h; exact absurd hx1 (by linarith)
          have hp : List.countP (fun x => decide (t ≤ x ∧ x < t + P)) pruned ≤ tl.length := by
            rw [hprE, List.countP_cons]
            have ht0f : decide (t ≤ t0 ∧ t0 < t + P) = false := by
              simp only [decide_eq_false_iff_not, not_and]
              intro h1
              exact absurd h1 (by linarith)
            rw [ht0f]
            simpa using List.countP_le_length _
          have hcnt : List.countP (fun x => decide (t ≤ x ∧ x < t + P)) log ≤ tl.length := by
            rw [hlog2, List.countP_append, hz]
            omega
          have hone : List.countP (fun x => decide (t ≤ x ∧ x < t + P)) [t0 + P] ≤ 1 :=
            List.countP_le_length _
          omega
        · have h0 : List.countP (fun x => decide (t ≤ x ∧ x < t + P)) [t0 + P] = 0 := by
            apply List.countP_eq_zero.mpr
            intro x hx
            simp only [List.mem_singleton] at hx
            subst hx
            simpa using hdw
          have := hInv.window t
          rw [windowCount] at this
          omega
  · rw [if_neg hN] at hstep
    have hcd : calls2 = pruned ++ [now] ∧ d = now := by
      have h' : some ((pruned ++ [now] : List ℚ), now) = some (calls2, d) := hstep
      simpa [Prod.ext_iff, eq_comm] using h'
    obtain ⟨hc2, hd⟩ := hcd
    subst hc2
    subst hd
    push_neg at hN
    refine ⟨hcurnow, ?_, ?_, ?_, ?_⟩
    · apply List.pairwise_append.mpr
      refine ⟨hprsorted, List.sorted_singleton _, ?_⟩
      intro x hx y hy
      simp only [List.mem_singleton] at hy
      subst hy
      have := hcallsle x (hprmem x hx).1
      linarith
    · refine ⟨old ++ dropped, ?_, ?_⟩
      · rw [hlog, hcalls_eq]
        simp [List.append_assoc]
      · intro x hx
        rcases List.mem_append.mp hx with h | h
        · have := hold x h; linarith
        · have := hdropped' x h; linarith
    · intro x hx
      rcases List.mem_append.mp hx with h | h
      · have := hInv.bounded x h; linarith
      · simp only [List.mem_singleton] at h; subst h; exact le_refl _
    · intro t
      rw [windowCount, List.countP_append]
      by_cases hdw : t ≤ now ∧ now < t + P
      · have himp : ∀ x ∈ log, decide (t ≤ x ∧ x < t + P) = true →
            decide (now - x < P) = true := by
          intro x _hx hxw
          simp only [decide_eq_true_eq] at hxw ⊢
          rcases hxw with ⟨h1, _h2⟩
          rcases hdw with ⟨_h3, h4⟩
          linarith
        have h1 : List.countP (fun x => decide (t ≤ x ∧ x < t + P)) log ≤
            List.countP (fun x => decide (now - x < P)) log :=
          List.countP_mono_left himp
        have h3 : List.countP (fun x => decide (now - x < P)) old = 0 := by
          apply List.countP_eq_zero.mpr
          intro x hx
          have := hold x hx
          simp only [decide_eq_true_eq, not_lt]
          linarith
        have h4 : List.countP (fun x => decide (now - x < P)) calls = pruned.length := by
          rw [List.countP_eq_length_filter, ← hpr]
        have h2 : List.countP (fun x => decide (now - x < P)) log = pruned.length := by
          rw [hlog, List.countP_append, h3, h4]
          omega
        have hone : List.countP (fun x => decide (t ≤ x ∧ x < t + P)) [now] ≤ 1 :=
          List.countP_le_length _
        omega
      · have h0 : List.countP (fun x => decide (t ≤ x ∧ x < t + P)) [now] = 0 := by
          apply List.countP_eq_zero.mpr
          intro x hx
          simp only [List.mem_singleton] at hx
          subst hx
          simpa using hdw
        have := hInv.window t
        rw [windowCount] at this
        omega

/-- The invariant carries through a whole run and bounds every window of the
final dispatch log. -/
theorem run_inv (N : Nat) (P : ℚ) :
    ∀ gaps : List ℚ, (∀ g ∈ gaps, 0 ≤ g) →
      ∀ (calls : List ℚ) (cur : ℚ) (prevLog : List ℚ), RLInv N P prevLog calls cur →
        ∀ log, RateLimiter.run N P gaps calls cur = some log →
          ∀ t, windowCount P t (prevLog ++ log) ≤ N := by
  intro gaps
  induction gaps with
  | nil =>
    intro _ calls cur prevLog hInv log hrun t
    simp only [RateLimiter.run, Option.some.injEq] at hrun
    subst hrun
    simpa using hInv.window t
  | cons g gaps ih =>
    intro hg calls cur prevLog hInv log hrun t
    simp only [RateLimiter.run] at hrun
    cases hstep : RateLimiter.step N P calls (cur + g) with
    | none => rw [hstep] at hrun; simp at hrun
    | some cd =>
      rw [hstep] at hrun
      have hrun' : (match RateLimiter.run N P gaps cd.1 cd.2 with
          | none => none
          | some log => some (cd.2 :: log)) = some log := hrun
      cases hrun2 : RateLimiter.run N P gaps cd.1 cd.2 with
      | none => rw [hrun2] at hrun'; simp at hrun'
      | some log' =>
        rw [hrun2] at hrun'
        simp only [Option.some.injEq] at hrun'
        subst hrun'
        obtain ⟨_hcur, hInv2⟩ := step_preserves N P prevLog calls cur g hInv
          (hg g (List.mem_cons_self _ _)) cd.1 cd.2 (by rw [hstep])
        have hres := ih (fun x hx => hg x (List.mem_cons_of_mem _ hx)) cd.1 cd.2
          (prevLog ++ [cd.2]) hInv2 log' hrun2 t
        have harr : prevLog ++ cd.2 :: log' = (prevLog ++ [cd.2]) ++ log' := by
          simp
        rw [harr]
        exact hres

/-- C6: for any single-consumer sequence of calls through the rate limiter —
each call entering a nonnegative delay after the previous dispatch — no
half-open window of `P` consecutive seconds contains more than `N` recorded
timestamps: each step prunes timestamps of age ≥ `P` and, when `N` survive,
sleeps until the oldest leaves the window before recording the dispatch. -/
theorem C6_theorem (N : Nat) (P start : ℚ) (gaps : List ℚ) (hg : ∀ g ∈ gaps, 0 ≤ g)
    (log : List ℚ) (hrun : RateLimiter.run N P gaps [] start = some log) :
    ∀ t, windowCount P t log ≤ N := by
  have h0 : RLInv N P [] [] start :=
    ⟨List.sorted_nil, ⟨[], rfl, by simp⟩, by simp, fun t => by simp [windowCount]⟩
  intro t
  have hres := run_inv N P gaps hg [] start [] h0 log hrun t
  simpa using hres

/-- Witness for C6: two back-to-back calls under the limit "1 call per
second" are dispatched at times 0 and 1, and every 1-second window holds at
most one of them. -/
theorem C6_witness : windowCount 1 0 [0, 1] ≤ 1 :=
  C6_theorem 1 1 0 [0, 0]
    (by
      intro g hg
      simp only [List.mem_cons, List.not_mem_nil, or_false] at hg
      rcases hg with rfl | rfl <;> norm_num)
    [0, 1]
    (by norm_num [RateLimiter.run, RateLimiter.step, RateLimiter.dispatchTime]) 0

/-! ### Pagination (C7) -/

theorem search_pages_stop (cap : Int) (p : PageResp) (rest : List PageResp)
    (acc : List String) (tok : Option String) (h : cap ≤ (acc.length : Int)) :
    search_pages cap (p :: rest) acc tok = (acc, []) := by
  unfold search_pages
  rw [if_pos h]

theorem search_pages_err (cap : Int) (rest : List PageResp) (acc : List String)
    (tok : Option String) (h : ¬ cap ≤ (acc.length : Int)) :
    search_pages cap (PageResp.err :: rest) acc tok = (acc, [tok]) := by
  unfold search_pages
  rw [if_neg h]

theorem search_pages_last (cap : Int) (rs : List String) (rest : List PageResp)
    (acc : List String) (tok : Option String) (h : ¬ cap ≤ (acc.length : Int)) :
    search_pages cap (PageResp.page rs none :: rest) acc tok = (acc ++ rs, [tok]) := by
  unfold search_pages
  rw [if_neg h]

theorem search_pages_cont (cap : Int) (rs : List String) (t2 : String)
    (rest : List PageResp) (acc : List String) (tok : Option String)
    (h : ¬ cap ≤ (acc.length : Int)) :
    search_pages cap (PageResp.page rs (some t2) :: rest) acc tok =
      ((search_pages cap rest (acc ++ rs) (some t2)).1,
       tok :: (search_pages cap rest (acc ++ rs) (some t2)).2) := by
  rw [search_pages.eq_def]
  simp only [if_neg h]

/-- The general pagination law: within the provider's response list, the
`j`-th search call is issued exactly when the accumulated count is still
below the cap and every earlier page succeeded with a continuation token. -/
theorem search_pages_call_iff :
    ∀ (pages : List PageResp) (cap : Int) (acc : List String) (tok : Option String)
      (j : Nat), j < pages.length →
      (j < (search_pages cap pages acc tok).2.length ↔
        ((acc.length : Int) + (resCount (pages.take j) : Int) < cap ∧
          ∀ p ∈ pages.take j, okTok p)) := by
  intro pages
  induction pages with
  | nil =>
    intro cap acc tok j hj
    simp at hj
  | cons p rest ih =>
    intro cap acc tok j hj
    by_cases hcap : cap ≤ (acc.length : Int)
    · rw [search_pages_stop cap p rest acc tok hcap]
      simp only [List.length_nil]
      constructor
      · intro h
        exact absurd h (Nat.not_lt_zero j)
      · rintro ⟨h1, -⟩
        exfalso
        have hnn : (0 : Int) ≤ (resCount ((p :: rest).take j) : Int) := Int.ofNat_nonneg _
        omega
    · cases p with
      | err =>
        rw [search_pages_err cap rest acc tok hcap]
        cases j with
        | zero =>
          simp only [List.take_zero, resCount, List.length_cons, List.length_nil]
          constructor
          · intro _
            refine ⟨by push_cast; omega, fun p hp => absurd hp (List.not_mem_nil p)⟩
          · intro _
            exact Nat.one_pos
        | succ j' =>
          simp only [List.length_cons, List.length_nil, List.take_succ_cons]
          constructor
          · intro h
            omega
          · rintro ⟨-, hall⟩
            exact (hall PageResp.err (List.mem_cons_self _ _)).elim
      | page rs t =>
        cases t with
        | none =>
          rw [search_pages_last cap rs rest acc tok hcap]
          cases j with
          | zero =>
            simp only [List.take_zero, resCount, List.length_cons, List.length_nil]
            constructor
            · intro _
              refine ⟨by push_cast; omega, fun p hp => absurd hp (List.not_mem_nil p)⟩
            · intro _
              exact Nat.one_pos
          | succ j' =>
            simp only [List.length_cons, List.length_nil, List.take_succ_cons]
            constructor
            · intro h
              omega
            · rintro ⟨-, hall⟩
              have hbad := hall (PageResp.page rs none) (List.mem_cons_self _ _)
              simp [okTok] at hbad
        | some t2 =>
          rw [search_pages_cont cap rs t2 rest acc tok hcap]
          cases j with
          | zero =>
            simp only [List.take_zero, resCount, List.length_cons]
            constructor
            · intro _
              refine ⟨by push_cast; omega, fun p hp => absurd hp (List.not_mem_nil p)⟩
            · intro _
              exact Nat.succ_pos _
          | succ j' =>
            have hj' : j' < rest.length := by simpa using hj
            have hih := ih cap (acc ++ rs) (some t2) j' hj'
            simp only [List.length_cons]
            rw [Nat.succ_lt_succ_iff, hih]
            simp only [List.take_succ_cons, resCount, List.mem_cons, List.length_append]
            constructor
            · rintro ⟨ha, hb⟩
              refine ⟨by push_cast at ha ⊢; omega, ?_⟩
              intro p hp
              rcases hp with rfl | hp'
              · simp [okTok]
              · exact hb p hp'
            · rintro ⟨ha, hb⟩
              refine ⟨by push_cast at ha ⊢; omega, fun p hp => hb p (Or.inr hp)⟩

/-- C7: with a cap of 50 against three pages of 20 results (tokens on pages
1–2, none on page 3), the orchestrator issues exactly 3 search calls,
accumulates 60 results, truncates to exactly the first 50, and the enriched
output has 50 records; in general, the `j`-th page is fetched exactly when
the accumulated count is still below the cap and every earlier page returned
a continuation token. -/
theorem C7_theorem :
    ((search_pages 50 scenarioPages [] none).1.length = 60 ∧
     (search_pages 50 scenarioPages [] none).2.length = 3 ∧
     pySlice 50 (search_pages 50 scenarioPages [] none).1 = List.replicate 50 "p" ∧
     (get_google_maps_data geo0 det0 ext0 scenarioPages (Location.name "NYC") "q"
        50 50000).1.length = 50) ∧
    (∀ (pages : List PageResp) (cap : Int) (acc : List String) (tok : Option String)
      (j : Nat), j < pages.length →
      (j < (search_pages cap pages acc tok).2.length ↔
        ((acc.length : Int) + (resCount (pages.take j) : Int) < cap ∧
          ∀ p ∈ pages.take j, okTok p))) :=
  ⟨⟨by decide, by decide, by decide, by decide⟩, search_pages_call_iff⟩

/-- Witness for C7: the third call of the scenario is issued because only 40
results are accumulated after two pages and both carried tokens. -/
theorem C7_witness :
    2 < (search_pages 50 scenarioPages [] none).2.length ↔
      ((([] : List String).length : Int) + (resCount (scenarioPages.take 2) : Int) < 50 ∧
        ∀ p ∈ scenarioPages.take 2, okTok p) :=
  C7_theorem.2 scenarioPages 50 [] none 2 (by decide)

/-! ### The driver (C4, C8, C9) -/

/-- C4 counterexample: when geocoding fails, the orchestrator does *not*
propagate an error — the exception is caught at gbs.py:107–109 and the
ordinary value `[]` is returned, indistinguishable from a successful run whose
search found nothing. -/
theorem C4_counterexample :
    (get_google_maps_data geoFail det0 ext0 pages0 (Location.name "Nowhere") "q" 100 50000).1
      = (get_google_maps_data geo0 det0 ext0 [] (Location.name "Nowhere") "q" 100 50000).1 ∧
    (get_google_maps_data geoFail det0 ext0 pages0 (Location.name "Nowhere") "q" 100 50000).1
      = [] := by decide

/-- C4 amended: when location resolution fails (the geocode call raises or
returns no match), the orchestrator catches the error, issues no further
calls, and returns an empty record list; the driver then aborts — no search
page is fetched, no enrichment occurs, no files are written and no sync is
attempted. -/
theorem C4_theorem (env : String → Option String) (parse_int : String → Option Int)
    (geocode : String → Except Unit (List LatLng)) (details_of : String → Option PlaceInfo)
    (extract : String → Option String) (pages : List PageResp) (loc : String)
    (h1 : env "SEARCH_LOCATION" = some loc)
    (h2 : geocode loc = Except.error () ∨ geocode loc = Except.ok []) :
    (∀ (query : String) (num_results radius : Int),
      get_google_maps_data geocode details_of extract pages (Location.name loc) query
        num_results radius = ([], [ApiCall.geocode loc])) ∧
    (main env parse_int geocode details_of extract pages).files = none ∧
    (main env parse_int geocode details_of extract pages).sync = none ∧
    ∀ c ∈ (main env parse_int geocode details_of extract pages).apiCalls,
      c = ApiCall.geocode loc := by
  have hloc : get_location_coordinates geocode (Location.name loc)
      = (Except.error (), [ApiCall.geocode loc]) := by
    rcases h2 with h | h <;> simp [get_location_coordinates, h]
  have horch : ∀ (query : String) (num_results radius : Int),
      get_google_maps_data geocode details_of extract pages (Location.name loc) query
        num_results radius = ([], [ApiCall.geocode loc]) := by
    intro query n r
    unfold get_google_maps_data
    rw [hloc]
  refine ⟨horch, ?_⟩
  cases hA : env "GOOGLE_MAPS_API_KEY" with
  | none =>
    simp only [main, hA, h1]
    refine ⟨by trivial, by trivial, ?_⟩
    intro c hc
    simp at hc
  | some apiKey =>
    cases hQ : env "SEARCH_QUERY" with
    | none =>
      simp only [main, hA, h1, hQ]
      refine ⟨by trivial, by trivial, ?_⟩
      intro c hc
      simp at hc
    | some query =>
      cases hN : parse_int ((env "NUM_RESULTS").getD "100") with
      | none =>
        simp only [main, hA, h1, hQ, hN]
        refine ⟨by trivial, by trivial, ?_⟩
        intro c hc
        simp at hc
      | some n =>
        cases hR : parse_int ((env "SEARCH_RADIUS").getD "50000") with
        | none =>
          simp only [main, hA, h1, hQ, hN, hR]
          refine ⟨by trivial, by trivial, ?_⟩
          intro c hc
          simp at hc
        | some r =>
          simp only [main, hA, h1, hQ, hN, hR, horch query n r]
          refine ⟨by trivial, by trivial, ?_⟩
          intro c hc
          simp at hc
          exact hc

/-- Witness for C4: a run whose geocode call raises aborts with no files and
no sync. -/
theorem C4_witness :
    (main env0 pint0 geoFail det0 ext0 pages0).files = none ∧
    (main env0 pint0 geoFail det0 ext0 pages0).sync = none :=
  ⟨(C4_theorem env0 pint0 geoFail det0 ext0 pages0 "New York" (by decide) (Or.inl rfl)).2.1,
   (C4_theorem env0 pint0 geoFail det0 ext0 pages0 "New York" (by decide) (Or.inl rfl)).2.2.1⟩

/-- C8: with remote sync enabled but any of the three Supabase options unset,
the sync step is skipped (with the missing-configuration error logged whenever
the run reaches it), and the files written are exactly those of the same run
with sync disabled — a missing sync option never prevents file persistence. -/
theorem C8_theorem (env : String → Option String) (parse_int : String → Option Int)
    (geocode : String → Except Unit (List LatLng)) (details_of : String → Option PlaceInfo)
    (extract : String → Option String) (pages : List PageResp)
    (h1 : envFlag env "USE_SUPABASE" "false" = true)
    (h2 : env "SUPABASE_URL" = none ∨ env "SUPABASE_KEY" = none ∨
      env "SUPABASE_TABLE_NAME" = none) :
    (main env parse_int geocode details_of extract pages).sync = none ∧
    ((main env parse_int geocode details_of extract pages).files ≠ none →
      LogEvent.supabaseMissingConfig ∈
        (main env parse_int geocode details_of extract pages).errors) ∧
    (main env parse_int geocode details_of extract pages).files =
      (main (envSet env "USE_SUPABASE" (some "false")) parse_int geocode details_of
        extract pages).files := by
  have he : ∀ k : String, ¬ k = "USE_SUPABASE" →
      envSet env "USE_SUPABASE" (some "false") k = env k := by
    intro k hk
    unfold envSet
    rw [if_neg hk]
  have e1 := he "GOOGLE_MAPS_API_KEY" (by decide)
  have e2 := he "SEARCH_LOCATION" (by decide)
  have e3 := he "SEARCH_QUERY" (by decide)
  have e4 := he "NUM_RESULTS" (by decide)
  have e5 := he "SEARCH_RADIUS" (by decide)
  have e6 := he "OUTPUT_FILE" (by decide)
  have f1 : envFlag (envSet env "USE_SUPABASE" (some "false")) "OUTPUT_CSV" "true"
      = envFlag env "OUTPUT_CSV" "true" := by
    unfold envFlag
    rw [he "OUTPUT_CSV" (by decide)]
  have f2 : envFlag (envSet env "USE_SUPABASE" (some "false")) "OUTPUT_JSON" "true"
      = envFlag env "OUTPUT_JSON" "true" := by
    unfold envFlag
    rw [he "OUTPUT_JSON" (by decide)]
  have hset : envSet env "USE_SUPABASE" (some "false") "USE_SUPABASE" = some "false" := by
    unfold envSet
    rw [if_pos rfl]
  have hsup : envFlag (envSet env "USE_SUPABASE" (some "false")) "USE_SUPABASE" "false"
      = false := by
    unfold envFlag
    rw [hset]
    decide
  have htr : (pyTruthyStr (env "SUPABASE_URL") && pyTruthyStr (env "SUPABASE_KEY") &&
      pyTruthyStr (env "SUPABASE_TABLE_NAME")) = false := by
    rcases h2 with h | h | h <;> simp [h, pyTruthyStr]
  cases hA : env "GOOGLE_MAPS_API_KEY" with
  | none =>
    simp only [main, hA, e1]
    exact ⟨by trivial, by simp, by trivial⟩
  | some apiKey =>
    cases hL : env "SEARCH_LOCATION" with
    | none =>
      simp only [main, hA, hL, e1, e2]
      exact ⟨by trivial, by simp, by trivial⟩
    | some loc =>
      cases hQ : env "SEARCH_QUERY" with
      | none =>
        simp only [main, hA, hL, hQ, e1, e2, e3]
        exact ⟨by trivial, by simp, by trivial⟩
      | some query =>
        cases hN : parse_int ((env "NUM_RESULTS").getD "100") with
        | none =>
          simp only [main, hA, hL, hQ, e1, e2, e3, e4, hN]
          exact ⟨by trivial, by simp, by trivial⟩
        | some n =>
          cases hR : parse_int ((env "SEARCH_RADIUS").getD "50000") with
          | none =>
            simp only [main, hA, hL, hQ, e1, e2, e3, e4, e5, hN, hR]
            exact ⟨by trivial, by simp, by trivial⟩
          | some r =>
            by_cases hgd : (get_google_maps_data geocode details_of extract pages
                (Location.name loc) query n r).1 = []
            · simp only [main, hA, hL, hQ, e1, e2, e3, e4, e5, hN, hR, hgd]
              simp
            · simp only [main, hA, hL, hQ, e1, e2, e3, e4, e5, e6, f1, f2, hN, hR,
                h1, hsup, htr]
              simp [hgd]

/-- Witness for C8 at a concrete run that reaches the sync step with
`USE_SUPABASE=true` and `SUPABASE_URL` unset. -/
theorem C8_witness :
    (main (envSet env0 "USE_SUPABASE" (some "true")) pint0 geo0 det0 ext0 pages0).sync
      = none ∧
    LogEvent.supabaseMissingConfig ∈
      (main (envSet env0 "USE_SUPABASE" (some "true")) pint0 geo0 det0 ext0 pages0).errors :=
  ⟨(C8_theorem (envSet env0 "USE_SUPABASE" (some "true")) pint0 geo0 det0 ext0 pages0
      (by decide) (Or.inl (by decide))).1,
   (C8_theorem (envSet env0 "USE_SUPABASE" (some "true")) pint0 geo0 det0 ext0 pages0
      (by decide) (Or.inl (by decide))).2.1 (by decide)⟩

/-- C9 counterexample: with both numeric options invalid
(`NUM_RESULTS="a"`, `SEARCH_RADIUS="b"`, neither parseable), the driver logs
only the first failure — the invalid `SEARCH_RADIUS` item is never logged,
refuting "logs each missing or invalid item". -/
theorem C9_counterexample :
    (main (envSet (envSet env0 "NUM_RESULTS" (some "a")) "SEARCH_RADIUS" (some "b"))
        (fun _ => none) geo0 det0 ext0 pages0).errors = [LogEvent.invalidConfig "a"] ∧
    LogEvent.invalidConfig "b" ∉
      (main (envSet (envSet env0 "NUM_RESULTS" (some "a")) "SEARCH_RADIUS" (some "b"))
        (fun _ => none) geo0 det0 ext0 pages0).errors ∧
    (envSet (envSet env0 "NUM_RESULTS" (some "a")) "SEARCH_RADIUS" (some "b"))
        "SEARCH_RADIUS" = some "b" ∧
    (fun (_ : String) => (none : Option Int)) "b" = none := by decide

/-- C9 amended: on a validation failure the driver returns with no provider
call, no file and no sync attempt; every *missing required* option is logged
individually, while for unparseable numeric options only the first failure is
logged (`int(config["NUM_RESULTS"])` raises before `SEARCH_RADIUS` is
converted). -/
theorem C9_theorem (env : String → Option String) (parse_int : String → Option Int)
    (geocode : String → Except Unit (List LatLng)) (details_of : String → Option PlaceInfo)
    (extract : String → Option String) (pages : List PageResp) :
    (missingKeys (env "GOOGLE_MAPS_API_KEY") (env "SEARCH_LOCATION") (env "SEARCH_QUERY")
        ≠ [] →
      main env parse_int geocode details_of extract pages =
        { apiCalls := [], files := none, sync := none,
          errors := (missingKeys (env "GOOGLE_MAPS_API_KEY") (env "SEARCH_LOCATION")
            (env "SEARCH_QUERY")).map LogEvent.missingConfig } ∧
      ∀ k ∈ missingKeys (env "GOOGLE_MAPS_API_KEY") (env "SEARCH_LOCATION")
          (env "SEARCH_QUERY"),
        LogEvent.missingConfig k ∈
          (main env parse_int geocode details_of extract pages).errors) ∧
    (∀ akey loc query, env "GOOGLE_MAPS_API_KEY" = some akey →
      env "SEARCH_LOCATION" = some loc → env "SEARCH_QUERY" = some query →
      (parse_int ((env "NUM_RESULTS").getD "100") = none →
        main env parse_int geocode details_of extract pages =
          { apiCalls := [], files := none, sync := none,
            errors := [LogEvent.invalidConfig ((env "NUM_RESULTS").getD "100")] }) ∧
      (∀ n, parse_int ((env "NUM_RESULTS").getD "100") = some n →
        parse_int ((env "SEARCH_RADIUS").getD "50000") = none →
        main env parse_int geocode details_of extract pages =
          { apiCalls := [], files := none, sync := none,
            errors := [LogEvent.invalidConfig ((env "SEARCH_RADIUS").getD "50000")] })) := by
  constructor
  · intro hmiss
    have hmain : main env parse_int geocode details_of extract pages =
        { apiCalls := [], files := none, sync := none,
          errors := (missingKeys (env "GOOGLE_MAPS_API_KEY") (env "SEARCH_LOCATION")
            (env "SEARCH_QUERY")).map LogEvent.missingConfig } := by
      cases hA : env "GOOGLE_MAPS_API_KEY" with
      | none => simp only [main, hA]
      | some a1 =>
        cases hL : env "SEARCH_LOCATION" with
        | none => simp only [main, hA, hL]
        | some l1 =>
          cases hQ : env "SEARCH_QUERY" with
          | none => simp only [main, hA, hL, hQ]
          | some q1 =>
            exfalso
            rw [hA, hL, hQ] at hmiss
            exact hmiss (by simp [missingKeys])
    refine ⟨hmain, ?_⟩
    intro k hk
    rw [hmain]
    exact List.mem_map_of_mem _ hk
  · intro akey loc query hA hL hQ
    constructor
    · intro hN
      simp only [main, hA, hL, hQ, hN]
    · intro n hN hR
      simp only [main, hA, hL, hQ, hN, hR]

/-- Witness for C9: a missing `SEARCH_QUERY` is logged and the driver returns
with empty effects. -/
theorem C9_witness :
    main (envSet env0 "SEARCH_QUERY" none) pint0 geo0 det0 ext0 pages0 =
      { apiCalls := [], files := none, sync := none,
        errors := [LogEvent.missingConfig "SEARCH_QUERY"] } := by
  have h := ((C9_theorem (envSet env0 "SEARCH_QUERY" none) pint0 geo0 det0 ext0 pages0).1
    (by decide)).1
  rw [h]
  decide

/-- Witness for C2 at the cap 100 and a one-page provider. -/
theorem C2_witness :
    (0 : Int) ≤ 100 ∧
    ((get_google_maps_data geo0 det0 ext0 pages0 (Location.name "New York") "cafes"
        100 50000).1.length : Int) ≤ 100 :=
  ⟨by decide,
   C2_theorem geo0 det0 ext0 pages0 (Location.name "New York") "cafes" 100 50000 (by decide)⟩

end GBS
